import Mathlib

/-!
Verification of the OmniSchema HTML5 UI plugin (src/plugins/ui-html5.js).

The file shallowly embeds the plugin's rendering code:
- JavaScript values are modelled by `JsVal` (undefined, null, string, number,
  boolean, object-as-association-list).  Numbers are modelled as integers:
  the plugin only ever passes values through unchanged or converts them to
  text, so integer-valued numbers suffice for every claim.
- JavaScript objects used as property bags are `Props`
  (insertion-ordered association lists with the unique-key invariant every
  real JavaScript object has).
- Fallible rendering (code paths that can throw) returns `Except String`,
  the error string standing for the thrown exception.
- The one observable mutation in the source (the input type behavior
  assigning `controlProps.value`) is modelled by explicit state passing:
  `inputGetHtml` returns the rendered string together with the final state
  of the `controlProps` object.

The host framework (`../types`, `../schemas`) is not part of the sources;
where its behavior decides a claim it is modelled from the spec, and those
definitions say so in their doc comments.
-/

namespace OmniHtml5

/-- Model of a JavaScript value as far as the plugin observes one. -/
inductive JsVal where
  | undefined
  | null
  | str (s : String)
  | num (n : Int)
  | bool (b : Bool)
  | obj (props : List (String × JsVal))

/-- A JavaScript object used as a property bag: insertion-ordered key/value
pairs.  Real JavaScript objects have unique keys; definitions below follow
JavaScript semantics on that invariant. -/
abbrev Props := List (String × JsVal)

/-- Conversion of a value to text, as performed by JavaScript template
literals (`${value}`) and by `.toString()` on the non-nullish values the
plugin calls it on. -/
def interpString : JsVal → String
  | .undefined => "undefined"
  | .null => "null"
  | .str s => s
  | .num n => toString n
  | .bool b => if b then "true" else "false"
  | .obj _ => "[object Object]"

/-- JavaScript strict equality (`===`) on the values the plugin compares.
Two `obj` values compare by reference in JavaScript; the embedding has no
aliasing, and distinct object literals are never `===`, so `obj` compares
unequal (no enum value in the plugin is an object). -/
def jsEq : JsVal → JsVal → Bool
  | .undefined, .undefined => true
  | .null, .null => true
  | .str a, .str b => a == b
  | .num a, .num b => a == b
  | .bool a, .bool b => a == b
  | _, _ => false

/-- JavaScript truthiness, as used by `if (defaultValue)` / `if (presentation)`. -/
def truthy : JsVal → Bool
  | .undefined => false
  | .null => false
  | .str s => !s.isEmpty
  | .num n => n != 0
  | .bool b => b
  | .obj _ => true

/-- First binding of a key in a property bag (JavaScript property read). -/
def lookupProp : Props → String → Option JsVal
  | [], _ => none
  | (k2, v) :: rest, k => if k2 == k then some v else lookupProp rest k

/-- JavaScript property assignment `o[k] = v`: overwrite the existing
binding in place (JavaScript objects have at most one binding per key),
append a new last binding otherwise. -/
def objSet : Props → String → JsVal → Props
  | [], k, v => [(k, v)]
  | (k1, v1) :: rest, k, v =>
    if k1 == k then (k, v) :: rest
    else (k1, v1) :: objSet rest k v

/-- `Object.assign({}, a, b)`: the keys of `a` in their order, each carrying
`b`'s value when `b` also has that key, followed by the keys of `b` that are
absent from `a`, in `b`'s order. -/
def objAssign (a b : Props) : Props :=
  a.map (fun kv =>
    match lookupProp b kv.1 with
    | some v => (kv.1, v)
    | none => kv)
  ++ b.filter (fun kv => !(a.any (fun kv2 => kv2.1 == kv.1)))

/-- Safe property read used by lodash `_.get`: reading a key off a
non-object (including undefined and null) yields undefined. -/
def jsGetSafe : JsVal → String → JsVal
  | .obj ps, k => (lookupProp ps k).getD .undefined
  | _, _ => .undefined

/-- Split a character list at dots, accumulating the current segment. -/
def splitPathAux : List Char → String → List String
  | [], cur => [cur]
  | c :: rest, cur =>
    if c = Char.ofNat 46 then cur :: splitPathAux rest ""
    else splitPathAux rest (cur.push c)

/-- Split a string path at dots, as lodash path parsing does for plain
dotted paths. -/
def splitPath (path : String) : List String :=
  splitPathAux path.data ""

/-- lodash `_.get(object, path)` for a string path: the path is split on
dots and each step is a safe property read. -/
def lodashGet (v : JsVal) (path : String) : JsVal :=
  (splitPath path).foldl jsGetSafe v

/-- JavaScript property access `v[k]` as an expression that can throw:
reading off undefined or null raises a TypeError; reading a missing key off
an object (or any key off a primitive) yields undefined. -/
def jsIndex : JsVal → String → Except String JsVal
  | .undefined, k => .error ("TypeError: Cannot read properties of undefined (reading " ++ k ++ ")")
  | .null, k => .error ("TypeError: Cannot read properties of null (reading " ++ k ++ ")")
  | .obj ps, k => .ok ((lookupProp ps k).getD .undefined)
  | _, _ => .ok .undefined

/-- `OmniSchema.html5.getPropsAsAttributeString(props, ignoreProps)` for a
present `props` object: every key not in `ignoreProps`, in insertion order,
rendered as ` key="value"` with template-literal text conversion.  (The
source returns a single blank for an absent `props` argument; every call
the claims reach passes an object.) -/
def getPropsAsAttributeString (props : Props) (ignoreProps : List String) : String :=
  (List.filter (fun kv => !(ignoreProps.contains kv.1)) props).foldl
    (fun attribs kv => attribs ++ " " ++ kv.1 ++ "=\"" ++ interpString kv.2 ++ "\"") ""

/-- One labeled enumerated value of a data type. -/
structure EnumVal where
  value : JsVal
  label : String

/-- A data type as the plugin observes it through the host framework's
type-trait interface: its name, its resolved `htmlSpec` trait (installed by
`defineHtmlType` as `{ elementName, ...props }`), its optional list of
enumerated values, and its `jsType` trait. -/
structure DataType where
  name : String
  htmlSpec : Option Props
  enumValues : Option (List EnumVal)
  jsType : Option String

mutual
/-- A schema field: name, display label, type (a data type or a nested
schema), required flag, `uiExclude` flag, and the `ui.presentation` hint. -/
inductive OmniField where
  | mk (name : String) (label : String) (type : FieldType) (isRequired : Bool)
       (uiExclude : Bool) (uiPres : Option String)

/-- The type of a field: either a data type or a nested schema. -/
inductive FieldType where
  | dt (d : DataType)
  | schema (s : Schema)

/-- A schema: collection name and ordered field list. -/
inductive Schema where
  | mk (collectionName : String) (fields : List OmniField)
end

def OmniField.name : OmniField → String
  | .mk n _ _ _ _ _ => n

def OmniField.label : OmniField → String
  | .mk _ l _ _ _ _ => l

def OmniField.type : OmniField → FieldType
  | .mk _ _ t _ _ _ => t

def OmniField.isRequired : OmniField → Bool
  | .mk _ _ _ r _ _ => r

def OmniField.uiExclude : OmniField → Bool
  | .mk _ _ _ _ e _ => e

/-- `_.get(field, 'ui.presentation')`: the explicit presentation hint, when
the field carries one. -/
def OmniField.uiPres : OmniField → Option String
  | .mk _ _ _ _ _ u => u

def Schema.collectionName : Schema → String
  | .mk c _ => c

def Schema.fields : Schema → List OmniField
  | .mk _ fs => fs

/-- `field.type.enumValues`: the enumerated values of the field's type;
reading the trait off a nested schema yields undefined, over which the
source's `_.forEach` is a no-op, hence the empty list. -/
def FieldType.enumValues : FieldType → List EnumVal
  | .dt d => d.enumValues.getD []
  | .schema _ => []

/-- `field.type.jsType`: the `jsType` trait of the field's type. -/
def FieldType.jsType : FieldType → Option String
  | .dt d => d.jsType
  | .schema _ => none

/-- `this.htmlSpec` as a property bag (absent trait reads as an empty bag,
matching `Object.assign({}, undefined, x)`). -/
def htmlSpecProps (d : DataType) : Props :=
  d.htmlSpec.getD []

/-- The string `strDefault` computed by `getEnumAsSelect`: the text
conversion of the default when it is neither undefined nor null, undefined
otherwise. -/
def selectStrDefault : JsVal → JsVal
  | .undefined => .undefined
  | .null => .undefined
  | v => .str (interpString v)

/-- One `<option>` line emitted by the loop body of `getEnumAsSelect`:
marked `selected` exactly when `ev.value === strDefault`. -/
def selectOptionHtml (strDefault : JsVal) (ev : EnumVal) : String :=
  "  <option value=\"" ++ interpString ev.value ++ "\" "
    ++ (if jsEq ev.value strDefault then "selected" else "")
    ++ ">" ++ ev.label ++ "</option>\n"

/-- `getEnumAsSelect(field, controlProps, defaultValue, fieldNamePfx)`.
The source ignores `controlProps` in this renderer. -/
def getEnumAsSelect (field : OmniField) (controlProps : Props) (defaultValue : JsVal)
    (fieldNamePfx : String) : String :=
  let code := "<select size=\"1\" name=\"" ++ fieldNamePfx ++ field.name ++ "\" "
    ++ (if field.isRequired then "required=\"required\"" else "") ++ ">\n"
  let strDefault := selectStrDefault defaultValue
  let code := field.type.enumValues.foldl (fun c ev => c ++ selectOptionHtml strDefault ev) code
  code ++ "</select>\n"

/-- One line emitted per enumerated value by `getEnumAsRadio`: a radio
input whose props are `Object.assign({}, controlProps, {type:'radio'})`,
gaining `checked = true` exactly when `ev.value === defaultValue`. -/
def radioLineHtml (field : OmniField) (controlProps : Props) (defaultValue : JsVal)
    (fieldNamePfx : String) (ev : EnumVal) : String :=
  let mergedProps := objAssign controlProps [("type", .str "radio")]
  let mergedProps := if jsEq ev.value defaultValue then objSet mergedProps "checked" (.bool true) else mergedProps
  "<input" ++ getPropsAsAttributeString mergedProps ["elementName"] ++ " "
    ++ (if field.isRequired then "required=\"required\" " else "")
    ++ "name=\"" ++ fieldNamePfx ++ field.name ++ "\" value=\"" ++ interpString ev.value ++ "\" />"
    ++ "&nbsp;" ++ ev.label ++ "<br/>\n"

/-- `getEnumAsRadio(field, controlProps, defaultValue, fieldNamePfx)`. -/
def getEnumAsRadio (field : OmniField) (controlProps : Props) (defaultValue : JsVal)
    (fieldNamePfx : String) : String :=
  field.type.enumValues.foldl
    (fun c ev => c ++ radioLineHtml field controlProps defaultValue fieldNamePfx ev) ""

/-- `getEnumAsCheckbox(field, controlProps, defaultValue, fieldNamePfx)`:
a single checkbox input, `checked` exactly when the default is truthy. -/
def getEnumAsCheckbox (field : OmniField) (controlProps : Props) (defaultValue : JsVal)
    (fieldNamePfx : String) : String :=
  let mergedProps := objAssign controlProps [("type", .str "checkbox")]
  let mergedProps := if truthy defaultValue then objSet mergedProps "checked" (.bool true) else mergedProps
  "<input" ++ getPropsAsAttributeString mergedProps ["elementName"] ++ " "
    ++ (if field.isRequired then "required=\"required\" " else "")
    ++ "name=\"" ++ fieldNamePfx ++ field.name ++ "\" />"

/-- The state of the caller's `controlProps` object after the input type
behavior's first statement: `if (typeof defaultValue !== 'undefined')
controlProps.value = defaultValue;` (note: a null default is assigned). -/
def inputControlProps (controlProps : Props) (defaultValue : JsVal) : Props :=
  match defaultValue with
  | .undefined => controlProps
  | v => objSet controlProps "value" v

/-- The merged props the input type behavior renders:
`Object.assign({}, this.htmlSpec, controlProps)` after the value
assignment. -/
def inputMergedProps (d : DataType) (controlProps : Props) (defaultValue : JsVal) : Props :=
  objAssign (htmlSpecProps d) (inputControlProps controlProps defaultValue)

/-- The `getHtml` type behavior registered for types whose `htmlSpec`
element is `input` (source lines 180-186).  The source mutates the
caller-supplied `controlProps`; the embedding passes that state explicitly
and returns the rendered string together with the final state of
`controlProps`. -/
def inputGetHtml (d : DataType) (field : OmniField) (controlProps : Props)
    (defaultValue : JsVal) (fieldNamePfx : String) : String × Props :=
  let controlProps := inputControlProps controlProps defaultValue
  let mergedProps := objAssign (htmlSpecProps d) controlProps
  ("<input" ++ getPropsAsAttributeString mergedProps ["elementName"] ++ " "
     ++ (if field.isRequired then "required=\"required\" " else "")
     ++ "name=\"" ++ fieldNamePfx ++ field.name ++ "\" />",
   controlProps)

/-- The `getHtml` type behavior registered for types declaring
`enumValues` (source lines 191-215).  The `checkbox` arm for a
boolean-valued enumeration calls `getBoolAsCheckbox`, a function defined
nowhere in the file (the checkbox renderer is named `getEnumAsCheckbox`),
so taking that arm throws a ReferenceError; the embedding returns the
corresponding error.  A present but empty hint is falsy in the source
(`if (presentation)`) and falls to the default select rendering. -/
def enumGetHtml (d : DataType) (field : OmniField) (controlProps : Props)
    (defaultValue : JsVal) (fieldNamePfx : String) : Except String String :=
  let merged := objAssign (htmlSpecProps d) controlProps
  match field.uiPres with
  | some presentation =>
    if presentation == "" then
      .ok (getEnumAsSelect field merged defaultValue fieldNamePfx)
    else if presentation == "select" then
      .ok (getEnumAsSelect field merged defaultValue fieldNamePfx)
    else if presentation == "radio" then
      .ok (getEnumAsRadio field merged defaultValue fieldNamePfx)
    else if presentation == "checkbox" then
      if field.type.jsType == some "boolean" then
        .error "ReferenceError: getBoolAsCheckbox is not defined"
      else
        .ok (getEnumAsSelect field merged defaultValue fieldNamePfx)
    else
      .ok (getEnumAsSelect field merged defaultValue fieldNamePfx)
  | none => .ok (getEnumAsSelect field merged defaultValue fieldNamePfx)

/-- The two `onType` behaviors the plugin registers, in registration
order: first the structural-predicate one (`htmlSpec.elementName ===
'input'`), then the key-predicate one (`enumValues`). -/
inductive TypeBehavior where
  | inputB
  | enumB
deriving DecidableEq

/-- The structural predicate `matches: { htmlSpec: { elementName: 'input' } }`
evaluated on a type's resolved traits. -/
def typeMatchesInput (d : DataType) : Bool :=
  match d.htmlSpec with
  | some ps =>
    match lookupProp ps "elementName" with
    | some (.str s) => s == "input"
    | _ => false
  | none => false

/-- The key predicate `matches: 'enumValues'` evaluated on a type's
resolved traits. -/
def typeMatchesEnum (d : DataType) : Bool :=
  d.enumValues.isSome

/-- Modelled from the spec: the host framework's mixin/resolution walker
(spec section 4.3) is in `../schemas`, which is not among the sources.  Per
the spec, type-level candidates are tried in registration order and the
last whose predicate matches wins; the plugin registers the input-element
behavior first and the `enumValues` behavior second, so a type declaring
`enumValues` gets the enumeration behavior, a type whose `htmlSpec`
element is `input` (and with no `enumValues`) gets the input behavior, and
a type matching neither has no `getHtml` installed. -/
def resolveTypeGetHtml (d : DataType) : Option TypeBehavior :=
  if typeMatchesEnum d then some .enumB
  else if typeMatchesInput d then some .inputB
  else none

mutual
/-- The `onField` behavior `getHtml(defaultValue, fieldNamePfx)` (source
lines 161-172): a nested-schema field reads `defaultValue[this.name]` and
recurses into the nested schema's fields with the prefix extended by the
field name and a dot; otherwise the field dispatches to its type's
`getHtml` behavior with a fresh empty `controlProps` object, or throws
when none is installed. -/
def fieldGetHtml : OmniField → JsVal → String → Except String String
  | .mk name label (.schema s) _ _ _, defaultValue, fieldNamePfx =>
    match jsIndex defaultValue name with
    | .error e => .error e
    | .ok inner =>
      match getHtmlFields s inner (fieldNamePfx ++ name ++ ".") with
      | .error e => .error e
      | .ok body =>
        .ok ("<div class=\"_" ++ s.collectionName ++ " _obj\">\n<label class=\"_objLabel\">"
          ++ label ++ "</label>\n" ++ body ++ "</div>")
  | .mk name label (.dt d) isRequired uiExclude uiPres, defaultValue, fieldNamePfx =>
    let field := OmniField.mk name label (.dt d) isRequired uiExclude uiPres
    match resolveTypeGetHtml d with
    | none => .error ("getHtml has not been defined for datatype " ++ d.name)
    | some .inputB =>
      .ok ("<label>" ++ label ++ " "
        ++ (inputGetHtml d field [] defaultValue fieldNamePfx).1 ++ "</label>")
    | some .enumB =>
      match enumGetHtml d field [] defaultValue fieldNamePfx with
      | .error e => .error e
      | .ok ctl => .ok ("<label>" ++ label ++ " " ++ ctl ++ "</label>")

/-- The `onSchema` behavior `getHtmlFields(defaultData, fieldNamePfx)`
(source lines 142-155): render each non-excluded field in declaration
order, looking its default up by name with `_.get` and appending a
newline after each field's output.  The source guard
`field instanceof OmniSchema.OmniField` always holds here because every
member of the modelled field list is a field. -/
def getHtmlFields : Schema → JsVal → String → Except String String
  | .mk _ fields, defaultData, fieldNamePfx => renderFieldList fields defaultData fieldNamePfx
termination_by structural s _ _ => s

/-- The field loop of `getHtmlFields`. -/
def renderFieldList : List OmniField → JsVal → String → Except String String
  | [], _, _ => .ok ""
  | field :: rest, defaultData, fieldNamePfx =>
    if field.uiExclude then renderFieldList rest defaultData fieldNamePfx
    else
      match fieldGetHtml field (lodashGet defaultData field.name) fieldNamePfx with
      | .error e => .error e
      | .ok code =>
        match renderFieldList rest defaultData fieldNamePfx with
        | .error e => .error e
        | .ok restCode => .ok (code ++ "\n" ++ restCode)
termination_by structural fs _ _ => fs
end

/-! ## Helper lemmas about the string and property-bag operations -/

/-- Concatenation of a list of strings. -/
def strJoin : List String → String
  | [] => ""
  | s :: rest => s ++ strJoin rest

theorem foldl_concat_eq_strJoin {α : Type} (f : α → String) (l : List α) :
    ∀ init : String, l.foldl (fun c x => c ++ f x) init = init ++ strJoin (l.map f) := by
  induction l with
  | nil =>
    intro init
    simp [strJoin, String.append_empty]
  | cons x rest ih =>
    intro init
    simp only [List.foldl_cons, List.map_cons, strJoin]
    rw [ih (init ++ f x), String.append_assoc]

/-- The required marker every renderer emits for a required field. -/
def reqMarker : String := "required=\"required\""

theorem lookupProp_none_of_any_eq_false (o : Props) (k : String)
    (h : o.any (fun kv => kv.1 == k) = false) : lookupProp o k = none := by
  induction o with
  | nil => rfl
  | cons kv rest ih =>
    obtain ⟨k2, v⟩ := kv
    simp only [List.any_cons, Bool.or_eq_false_iff] at h
    simp only [lookupProp, h.1, Bool.false_eq_true, if_false]
    exact ih h.2

theorem lookupProp_filter_none (b : Props) (pred : String × JsVal → Bool) (k : String)
    (h : lookupProp b k = none) : lookupProp (b.filter pred) k = none := by
  induction b with
  | nil => rfl
  | cons kv rest ih =>
    obtain ⟨k2, v⟩ := kv
    simp only [lookupProp] at h
    by_cases hk : (k2 == k) = true
    · rw [if_pos hk] at h
      cases h
    · rw [if_neg hk] at h
      simp only [List.filter_cons]
      by_cases hp : pred (k2, v) = true
      · simp only [hp, if_pos, lookupProp, hk, Bool.false_eq_true, if_false]
        exact ih h
      · simp only [hp, Bool.false_eq_true, if_false]
        exact ih h

theorem lookupProp_mapSubst_both (b : Props) :
    ∀ (a y : Props) (k : String),
      (lookupProp a k).isSome = true → (lookupProp b k).isSome = true →
      lookupProp (a.map (fun kv =>
          match lookupProp b kv.1 with
          | some v => (kv.1, v)
          | none => kv) ++ y) k = lookupProp b k := by
  intro a
  induction a with
  | nil =>
    intro y k ha _
    simp [lookupProp] at ha
  | cons kv rest ih =>
    intro y k ha hb
    obtain ⟨k2, v⟩ := kv
    by_cases hk : (k2 == k) = true
    · have hk2 : k2 = k := by simpa using hk
      subst hk2
      obtain ⟨w, hw⟩ := Option.isSome_iff_exists.mp hb
      simp [List.map_cons, hw, lookupProp, List.cons_append]
    · have ha2 : (lookupProp rest k).isSome = true := by
        simpa [lookupProp, hk] using ha
      cases hlk : lookupProp b k2 with
      | some w =>
        simp only [List.map_cons, hlk, List.cons_append, lookupProp, hk,
          Bool.false_eq_true, if_false]
        exact ih y k ha2 hb
      | none =>
        simp only [List.map_cons, hlk, List.cons_append, lookupProp, hk,
          Bool.false_eq_true, if_false]
        exact ih y k ha2 hb

theorem lookupProp_mapSubst_right_none (b : Props) :
    ∀ (a y : Props) (k : String),
      lookupProp b k = none → lookupProp y k = none →
      lookupProp (a.map (fun kv =>
          match lookupProp b kv.1 with
          | some v => (kv.1, v)
          | none => kv) ++ y) k = lookupProp a k := by
  intro a
  induction a with
  | nil =>
    intro y k _ hy
    simpa [lookupProp] using hy
  | cons kv rest ih =>
    intro y k hb hy
    obtain ⟨k2, v⟩ := kv
    by_cases hk : (k2 == k) = true
    · have hk2 : k2 = k := by simpa using hk
      subst hk2
      simp [List.map_cons, hb, lookupProp, List.cons_append]
    · cases hlk : lookupProp b k2 with
      | some w =>
        simp only [List.map_cons, hlk, List.cons_append, lookupProp, hk,
          Bool.false_eq_true, if_false]
        exact ih y k hb hy
      | none =>
        simp only [List.map_cons, hlk, List.cons_append, lookupProp, hk,
          Bool.false_eq_true, if_false]
        exact ih y k hb hy

/-- Caller props win in `Object.assign({}, a, b)` for every key present in
both objects. -/
theorem lookupProp_objAssign_right (a b : Props) (k : String)
    (ha : (lookupProp a k).isSome = true) (hb : (lookupProp b k).isSome = true) :
    lookupProp (objAssign a b) k = lookupProp b k :=
  lookupProp_mapSubst_both b a _ k ha hb

/-- Keys absent from the caller props keep the base object value in
`Object.assign({}, a, b)`. -/
theorem lookupProp_objAssign_left (a b : Props) (k : String)
    (hb : lookupProp b k = none) :
    lookupProp (objAssign a b) k = lookupProp a k :=
  lookupProp_mapSubst_right_none b a _ k hb (lookupProp_filter_none b _ k hb)

/-- JavaScript property write then read: reading the written key yields the
written value, every other key is unchanged. -/
theorem lookupProp_objSet (k k2 : String) (v : JsVal) :
    ∀ o : Props,
      lookupProp (objSet o k v) k2 = if k = k2 then some v else lookupProp o k2 := by
  intro o
  induction o with
  | nil =>
    by_cases hk : k = k2
    · subst hk
      simp [objSet, lookupProp]
    · have hb : (k == k2) = false := by simpa using hk
      simp [objSet, lookupProp, hb, hk]
  | cons kv rest ih =>
    obtain ⟨k1, v1⟩ := kv
    simp only [objSet]
    by_cases h1 : (k1 == k) = true
    · have hk1 : k1 = k := by simpa using h1
      subst hk1
      rw [if_pos h1]
      by_cases hk : k1 = k2
      · subst hk
        simp [lookupProp]
      · have hb : (k1 == k2) = false := by simpa using hk
        simp [lookupProp, hb, hk]
    · rw [if_neg h1]
      by_cases hk2 : (k1 == k2) = true
      · have hk1 : k1 = k2 := by simpa using hk2
        have hk : ¬ k = k2 := fun hc => h1 (by simp [hk1, hc])
        simp [lookupProp, hk2, hk]
      · simp only [lookupProp, hk2, Bool.false_eq_true, if_false]
        exact ih

theorem infix_append_left {α : Type} (x : List α) {l1 l2 : List α}
    (h : l1 <:+: l2) : l1 <:+: x ++ l2 := by
  obtain ⟨s, t, rfl⟩ := h
  exact ⟨x ++ s, t, by simp [List.append_assoc]⟩

theorem infix_head_of_prefix (pat lit : String) (hp : pat.data <+: lit.data)
    (rest : List Char) : pat.data <:+: lit.data ++ rest :=
  (hp.trans (List.prefix_append lit.data rest)).isInfix

/-- `getEnumAsSelect` decomposed: a header carrying the field name and the
required marker, one option line per enumerated value in declaration
order, and a closing tag.  The marking condition of each option line is
strict equality of the declared value against the text conversion of the
supplied default. -/
theorem getEnumAsSelect_eq (field : OmniField) (cp : Props) (dv : JsVal) (p : String) :
    getEnumAsSelect field cp dv p =
      ("<select size=\"1\" name=\"" ++ p ++ field.name ++ "\" "
        ++ (if field.isRequired then reqMarker else "") ++ ">\n")
      ++ strJoin (field.type.enumValues.map (selectOptionHtml (selectStrDefault dv)))
      ++ "</select>\n" := by
  unfold getEnumAsSelect
  dsimp only
  rw [foldl_concat_eq_strJoin]
  rfl

/-- `getEnumAsRadio` decomposed: one radio line per enumerated value in
declaration order; the checking condition of each line is strict equality
of the declared value against the supplied default, with no conversion. -/
theorem getEnumAsRadio_eq (field : OmniField) (cp : Props) (dv : JsVal) (p : String) :
    getEnumAsRadio field cp dv p
      = strJoin (field.type.enumValues.map (radioLineHtml field cp dv p)) := by
  unfold getEnumAsRadio
  rw [foldl_concat_eq_strJoin, String.empty_append]

theorem getEnumAsSelect_ne_empty (field : OmniField) (cp : Props) (dv : JsVal) (p : String) :
    getEnumAsSelect field cp dv p ≠ "" := by
  intro h
  have hl := congrArg String.length h
  rw [getEnumAsSelect_eq, String.length_append, String.length_append] at hl
  have h10 : ("</select>\n" : String).length = 10 := rfl
  have h0 : ("" : String).length = 0 := rfl
  rw [h10, h0] at hl
  omega

/-! ## Sample data used by concrete theorems and witnesses -/

/-- The `String` data type as decorated by
`defineHtmlType('String', 'input', { type: 'text' })`. -/
def stringType : DataType :=
  { name := "String"
    htmlSpec := some [("elementName", .str "input"), ("type", .str "text")]
    enumValues := none
    jsType := some "string" }

/-- A plain string field named `zip`. -/
def zipField : OmniField := .mk "zip" "Zip" (.dt stringType) false false none

/-- A nested schema holding the `zip` field. -/
def addressSchema : Schema := .mk "address" [zipField]

/-- A composite field whose type is the nested `address` schema. -/
def addressField : OmniField := .mk "address" "Address" (.schema addressSchema) false false none

/-- A boolean-valued enumeration type (`jsType` trait boolean). -/
def yesNoType : DataType :=
  { name := "YesNo"
    htmlSpec := some [("elementName", .str "input"), ("type", .str "checkbox")]
    enumValues := some [⟨.bool true, "Yes"⟩, ⟨.bool false, "No"⟩]
    jsType := some "boolean" }

/-- A boolean-enum field explicitly requesting the checkbox presentation. -/
def agreeField : OmniField := .mk "agree" "Agree" (.dt yesNoType) false false (some "checkbox")

/-- An enumeration whose declared value is the number `1`. -/
def numEnumType : DataType :=
  { name := "Num"
    htmlSpec := some [("elementName", .str "input")]
    enumValues := some [⟨.num 1, "One"⟩]
    jsType := some "number" }

/-- A field of the numeric enumeration type, no presentation hint. -/
def numField : OmniField := .mk "n" "N" (.dt numEnumType) false false none

/-- A data type matching neither registered type behavior: no `htmlSpec`
trait and no `enumValues`. -/
def mysteryType : DataType :=
  { name := "Mystery", htmlSpec := none, enumValues := none, jsType := none }

/-! ## Claims -/

/-- C1: the claim says a field whose default value is absent renders
without error for every field kind, including fields whose type is itself
a Schema.  The code violates this: for a Schema-typed field `getHtml`
evaluates `defaultValue[this.name]`, which throws a TypeError when the
default is absent (`undefined`).  This theorem evaluates the embedded code
at the failing input: a schema holding one nested-schema field, rendered
with default data that has no entry for it. -/
theorem C1_missing_default_nested_schema_throws :
    getHtmlFields (Schema.mk "person" [addressField]) (.obj []) ""
      = .error "TypeError: Cannot read properties of undefined (reading address)" := by
  simp only [getHtmlFields, renderFieldList, fieldGetHtml, addressField, addressSchema, zipField]
  rfl

/-- C2: the claim says a field with the explicit hint `checkbox` whose
type is a boolean-valued enumeration dispatches to the checkbox renderer
and returns a single checkbox input.  The code instead calls
`getBoolAsCheckbox`, an identifier defined nowhere in the file (the
checkbox renderer is named `getEnumAsCheckbox`), so taking that branch
throws a ReferenceError.  This theorem evaluates the embedded code at the
failing input. -/
theorem C2_checkbox_hint_boolean_enum_throws :
    fieldGetHtml agreeField (.bool true) ""
      = .error "ReferenceError: getBoolAsCheckbox is not defined" := by
  simp only [fieldGetHtml, agreeField, yesNoType]
  rfl

/-- C7: a field whose type is not a Schema and has no installed `getHtml`
type behavior raises the error synchronously rather than skipping the
field. -/
theorem C7_undefined_capability_throws :
    ∀ (n l : String) (d : DataType) (r e : Bool) (u : Option String)
      (dv : JsVal) (p : String),
      resolveTypeGetHtml d = none →
      fieldGetHtml (OmniField.mk n l (.dt d) r e u) dv p
        = .error ("getHtml has not been defined for datatype " ++ d.name) := by
  intro n l d r e u dv p h
  rw [fieldGetHtml]
  rw [h]

/-- Witness for C7 at a concrete type matching neither registered behavior. -/
theorem C7_undefined_capability_throws_witness :
    resolveTypeGetHtml mysteryType = none
    ∧ fieldGetHtml (OmniField.mk "m" "M" (.dt mysteryType) false false none) .undefined ""
        = .error ("getHtml has not been defined for datatype " ++ mysteryType.name) :=
  ⟨rfl, C7_undefined_capability_throws "m" "M" mysteryType false false none .undefined "" rfl⟩

/-- C5: a field marked `uiExclude` contributes nothing to the output of
`getHtmlFields`: the rendered output equals the output of the same schema
with that field removed, for every default data and prefix. -/
theorem C5_excluded_field_contributes_nothing :
    ∀ (cn : String) (pre post : List OmniField) (n l : String) (ty : FieldType)
      (r : Bool) (u : Option String) (dd : JsVal) (p : String),
      getHtmlFields (Schema.mk cn (pre ++ OmniField.mk n l ty r true u :: post)) dd p
        = getHtmlFields (Schema.mk cn (pre ++ post)) dd p := by
  intro cn pre post n l ty r u dd p
  simp only [getHtmlFields]
  induction pre with
  | nil =>
    simp only [List.nil_append]
    rw [renderFieldList]
    simp [OmniField.uiExclude]
  | cons f fs ih =>
    simp only [List.cons_append, renderFieldList, List.append_eq]
    rw [ih]

/-- C6: a field whose type is itself a Schema renders by recursing into
the nested schema fields with the name prefix extended by the field name
plus a dot, so dotted-path control names compose through arbitrary
nesting; concretely, inner field `zip` of composite field `address`
rendered with prefix `""` yields a control named `address.zip`. -/
theorem C6_nested_schema_prefix_extension :
    (∀ (n l : String) (s : Schema) (r e : Bool) (u : Option String)
       (dv : JsVal) (p : String),
      fieldGetHtml (OmniField.mk n l (.schema s) r e u) dv p
        = (jsIndex dv n).bind (fun inner =>
            Except.map (fun body =>
                "<div class=\"_" ++ s.collectionName ++ " _obj\">\n<label class=\"_objLabel\">"
                  ++ l ++ "</label>\n" ++ body ++ "</div>")
              (getHtmlFields s inner (p ++ n ++ "."))))
    ∧ fieldGetHtml addressField (.obj []) ""
        = .ok ("<div class=\"_address _obj\">\n<label class=\"_objLabel\">Address</label>\n<label>Zip <input type=\"text\" name=\"address.zip\" /></label>\n</div>") := by
  constructor
  · intro n l s r e u dv p
    rw [fieldGetHtml]
    cases hj : jsIndex dv n with
    | error err => rfl
    | ok inner =>
      dsimp only [Except.bind]
      cases hg : getHtmlFields s inner (p ++ n ++ ".") with
      | error err => rfl
      | ok body => rfl
  · simp only [fieldGetHtml, getHtmlFields, renderFieldList, addressField, addressSchema, zipField]
    rfl

/-- C4: for an enumeration field, rendering with an inapplicable or
unrecognized presentation hint (checkbox on a non-boolean-valued
enumeration, or any hint outside select/radio/checkbox) produces output
identical to rendering the same field with no hint at all, and that
output is a successful, non-empty select rendering. -/
theorem C4_inapplicable_hint_falls_back :
    ∀ (d : DataType) (n l : String) (ty : FieldType) (r e : Bool)
      (cp : Props) (dv : JsVal) (p : String) (pres : String),
      pres ≠ "select" → pres ≠ "radio" →
      (pres = "checkbox" → FieldType.jsType ty ≠ some "boolean") →
      enumGetHtml d (OmniField.mk n l ty r e (some pres)) cp dv p
          = enumGetHtml d (OmniField.mk n l ty r e none) cp dv p
        ∧ ∃ out, enumGetHtml d (OmniField.mk n l ty r e none) cp dv p = Except.ok out
            ∧ out ≠ "" := by
  intro d n l ty r e cp dv p pres h1 h2 h3
  refine ⟨?_, ⟨getEnumAsSelect (OmniField.mk n l ty r e none)
      (objAssign (htmlSpecProps d) cp) dv p, rfl, getEnumAsSelect_ne_empty _ _ _ _⟩⟩
  by_cases hemp : pres = ""
  · subst hemp
    rfl
  · have he : (pres == "") = false := by simpa using hemp
    have hs : (pres == "select") = false := by simpa using h1
    have hr : (pres == "radio") = false := by simpa using h2
    by_cases hcb : pres = "checkbox"
    · have hb : (FieldType.jsType ty == some "boolean") = false := by
        simpa using h3 hcb
      subst hcb
      simp only [enumGetHtml, OmniField.uiPres, OmniField.type, he, hs, hr, hb,
        Bool.false_eq_true, if_false]
      rfl
    · have hc : (pres == "checkbox") = false := by simpa using hcb
      simp only [enumGetHtml, OmniField.uiPres, he, hs, hr, hc,
        Bool.false_eq_true, if_false]
      rfl

/-- Witness for C4: the checkbox hint on the numeric enumeration. -/
theorem C4_inapplicable_hint_falls_back_witness :
    enumGetHtml numEnumType (OmniField.mk "n" "N" (.dt numEnumType) false false (some "checkbox")) [] (.str "1") ""
        = enumGetHtml numEnumType (OmniField.mk "n" "N" (.dt numEnumType) false false none) [] (.str "1") ""
      ∧ ∃ out, enumGetHtml numEnumType (OmniField.mk "n" "N" (.dt numEnumType) false false none) [] (.str "1") ""
          = Except.ok out ∧ out ≠ "" :=
  C4_inapplicable_hint_falls_back numEnumType "n" "N" (.dt numEnumType) false false
    [] (.str "1") "" "checkbox" (by decide) (by decide) (fun _ => by decide)

set_option maxRecDepth 4096 in
/-- C3 counterexample: the claim says an enum value `1` is marked selected
when the supplied default is `"1"` or `1`, both sides being coerced to
text.  In the code only the default is coerced: `getEnumAsSelect` compares
`ev.value === strDefault` with `===`, so the numeric enum value `1` is
never marked, neither for default `"1"` nor for default `1`. -/
theorem C3_value_equality_counterexample :
    (¬ "selected".data <:+: (getEnumAsSelect numField [] (.str "1") "").data)
    ∧ (¬ "selected".data <:+: (getEnumAsSelect numField [] (.num 1) "").data) := by
  constructor <;> decide

/-- C3 as amended: the select renderer marks an option selected exactly
when its declared value strictly equals (with no coercion of the declared
value) the text conversion of the supplied default, and the radio
renderer marks an option checked exactly when its declared value strictly
equals the raw default; hence string-valued enum options are marked in a
select for both a string and a number default of the same text, while
number-valued options are never marked, and radio marking never coerces
at all. -/
theorem C3_marking_by_strict_equality :
    (∀ (field : OmniField) (cp : Props) (dv : JsVal) (p : String),
      getEnumAsSelect field cp dv p =
        ("<select size=\"1\" name=\"" ++ p ++ field.name ++ "\" "
          ++ (if field.isRequired then reqMarker else "") ++ ">\n")
        ++ strJoin (field.type.enumValues.map (selectOptionHtml (selectStrDefault dv)))
        ++ "</select>\n")
    ∧ (∀ (field : OmniField) (cp : Props) (dv : JsVal) (p : String),
      getEnumAsRadio field cp dv p
        = strJoin (field.type.enumValues.map (radioLineHtml field cp dv p)))
    ∧ (∀ (sd : JsVal) (ev : EnumVal), jsEq ev.value sd = true →
        "selected".data <:+: (selectOptionHtml sd ev).data)
    ∧ (∀ s s2 : String, jsEq (.str s) (selectStrDefault (.str s2)) = (s == s2))
    ∧ (∀ (s : String) (n : Int),
        jsEq (.str s) (selectStrDefault (.num n)) = (s == interpString (.num n)))
    ∧ (∀ (n : Int) (dv : JsVal), jsEq (.num n) (selectStrDefault dv) = false)
    ∧ (∀ (s : String) (n : Int), jsEq (.str s) (.num n) = false) := by
  refine ⟨getEnumAsSelect_eq, getEnumAsRadio_eq, ?_, ?_, ?_, ?_, ?_⟩
  · intro sd ev h
    unfold selectOptionHtml
    rw [if_pos h]
    simp only [String.data_append, List.append_assoc]
    apply infix_append_left
    apply infix_append_left
    apply infix_append_left
    exact infix_head_of_prefix "selected" "selected" (List.prefix_refl _) _
  · intro s s2
    rfl
  · intro s n
    rfl
  · intro n dv
    cases dv <;> rfl
  · intro s n
    rfl

/-- Witness for C3 as amended: a string-valued enum option equal to the default is marked. -/
theorem C3_marking_by_strict_equality_witness :
    jsEq (EnumVal.mk (.str "live") "Live").value (selectStrDefault (.str "live")) = true
    ∧ "selected".data <:+:
        (selectOptionHtml (selectStrDefault (.str "live")) (EnumVal.mk (.str "live") "Live")).data :=
  ⟨by decide, C3_marking_by_strict_equality.2.2.1 (selectStrDefault (.str "live"))
    (EnumVal.mk (.str "live") "Live") (by decide)⟩

theorem inputGetHtml_marker (d : DataType) (n l : String) (ty : FieldType) (e : Bool)
    (u : Option String) (cp : Props) (dv : JsVal) (p : String) :
    reqMarker.data <:+: ((inputGetHtml d (OmniField.mk n l ty true e u) cp dv p).1).data := by
  have heq : (inputGetHtml d (OmniField.mk n l ty true e u) cp dv p).1
      = "<input"
        ++ getPropsAsAttributeString (objAssign (htmlSpecProps d) (inputControlProps cp dv))
            ["elementName"]
        ++ " " ++ "required=\"required\" " ++ "name=\"" ++ p ++ n ++ "\" />" := rfl
  rw [heq]
  simp only [String.data_append, List.append_assoc]
  apply infix_append_left
  apply infix_append_left
  apply infix_append_left
  exact infix_head_of_prefix reqMarker "required=\"required\" " (by decide) _

theorem getEnumAsSelect_marker (n l : String) (ty : FieldType) (e : Bool) (u : Option String)
    (cp : Props) (dv : JsVal) (p : String) :
    reqMarker.data <:+: (getEnumAsSelect (OmniField.mk n l ty true e u) cp dv p).data := by
  have heq : getEnumAsSelect (OmniField.mk n l ty true e u) cp dv p
      = (List.foldl (fun c ev => c ++ selectOptionHtml (selectStrDefault dv) ev)
          ("<select size=\"1\" name=\"" ++ p ++ n ++ "\" " ++ "required=\"required\"" ++ ">\n")
          (FieldType.enumValues ty))
        ++ "</select>\n" := rfl
  rw [heq, foldl_concat_eq_strJoin]
  simp only [String.data_append, List.append_assoc]
  apply infix_append_left
  apply infix_append_left
  apply infix_append_left
  apply infix_append_left
  exact infix_head_of_prefix reqMarker "required=\"required\"" (by decide) _

theorem radioLineHtml_marker (n l : String) (ty : FieldType) (e : Bool) (u : Option String)
    (cp : Props) (dv : JsVal) (p : String) (ev : EnumVal) :
    reqMarker.data <:+: (radioLineHtml (OmniField.mk n l ty true e u) cp dv p ev).data := by
  have heq : radioLineHtml (OmniField.mk n l ty true e u) cp dv p ev
      = "<input"
        ++ getPropsAsAttributeString
            (if jsEq ev.value dv then
                objSet (objAssign cp [("type", JsVal.str "radio")]) "checked" (JsVal.bool true)
              else objAssign cp [("type", JsVal.str "radio")]) ["elementName"]
        ++ " " ++ "required=\"required\" " ++ "name=\"" ++ p ++ n ++ "\" value=\""
        ++ interpString ev.value ++ "\" />" ++ "&nbsp;" ++ ev.label ++ "<br/>\n" := rfl
  rw [heq]
  simp only [String.data_append, List.append_assoc]
  apply infix_append_left
  apply infix_append_left
  apply infix_append_left
  exact infix_head_of_prefix reqMarker "required=\"required\" " (by decide) _

theorem getEnumAsCheckbox_marker (n l : String) (ty : FieldType) (e : Bool) (u : Option String)
    (cp : Props) (dv : JsVal) (p : String) :
    reqMarker.data <:+: (getEnumAsCheckbox (OmniField.mk n l ty true e u) cp dv p).data := by
  have heq : getEnumAsCheckbox (OmniField.mk n l ty true e u) cp dv p
      = "<input"
        ++ getPropsAsAttributeString
            (if truthy dv then
                objSet (objAssign cp [("type", JsVal.str "checkbox")]) "checked" (JsVal.bool true)
              else objAssign cp [("type", JsVal.str "checkbox")]) ["elementName"]
        ++ " " ++ "required=\"required\" " ++ "name=\"" ++ p ++ n ++ "\" />" := rfl
  rw [heq]
  simp only [String.data_append, List.append_assoc]
  apply infix_append_left
  apply infix_append_left
  apply infix_append_left
  exact infix_head_of_prefix reqMarker "required=\"required\" " (by decide) _

/-- C8: every rendered control (input, select, radio, checkbox) carries
the marker `required="required"` exactly when the field required flag is
set.  Each conjunct assumes the corresponding rendering of the same field
with the flag cleared contains no stray occurrence of the marker text
(coming from a field name, prefix, label, option value or caller prop),
which holds of every well-formed field. -/
theorem C8_required_marker_iff :
    ∀ (d : DataType) (n l : String) (ty : FieldType) (r e : Bool) (u : Option String)
      (cp : Props) (dv : JsVal) (p : String) (ev : EnumVal),
      (¬ reqMarker.data <:+: ((inputGetHtml d (OmniField.mk n l ty false e u) cp dv p).1).data →
        (reqMarker.data <:+: ((inputGetHtml d (OmniField.mk n l ty r e u) cp dv p).1).data
          ↔ r = true))
      ∧ (¬ reqMarker.data <:+: (getEnumAsSelect (OmniField.mk n l ty false e u) cp dv p).data →
        (reqMarker.data <:+: (getEnumAsSelect (OmniField.mk n l ty r e u) cp dv p).data
          ↔ r = true))
      ∧ (¬ reqMarker.data <:+: (radioLineHtml (OmniField.mk n l ty false e u) cp dv p ev).data →
        (reqMarker.data <:+: (radioLineHtml (OmniField.mk n l ty r e u) cp dv p ev).data
          ↔ r = true))
      ∧ (¬ reqMarker.data <:+: (getEnumAsCheckbox (OmniField.mk n l ty false e u) cp dv p).data →
        (reqMarker.data <:+: (getEnumAsCheckbox (OmniField.mk n l ty r e u) cp dv p).data
          ↔ r = true)) := by
  intro d n l ty r e u cp dv p ev
  refine ⟨?_, ?_, ?_, ?_⟩
  · intro h
    cases r with
    | false => exact iff_of_false h (by simp)
    | true => exact iff_of_true (inputGetHtml_marker d n l ty e u cp dv p) rfl
  · intro h
    cases r with
    | false => exact iff_of_false h (by simp)
    | true => exact iff_of_true (getEnumAsSelect_marker n l ty e u cp dv p) rfl
  · intro h
    cases r with
    | false => exact iff_of_false h (by simp)
    | true => exact iff_of_true (radioLineHtml_marker n l ty e u cp dv p ev) rfl
  · intro h
    cases r with
    | false => exact iff_of_false h (by simp)
    | true => exact iff_of_true (getEnumAsCheckbox_marker n l ty e u cp dv p) rfl

set_option maxRecDepth 8192 in
/-- Witness for C8: all four renderers at a concrete required field. -/
theorem C8_required_marker_iff_witness :
    (reqMarker.data <:+:
        ((inputGetHtml stringType (OmniField.mk "z" "Z" (.dt stringType) true false none)
          [] .undefined "").1).data ↔ true = true)
    ∧ (reqMarker.data <:+:
        (getEnumAsSelect (OmniField.mk "z" "Z" (.dt stringType) true false none)
          [] .undefined "").data ↔ true = true)
    ∧ (reqMarker.data <:+:
        (radioLineHtml (OmniField.mk "z" "Z" (.dt stringType) true false none)
          [] .undefined "" (EnumVal.mk (.str "a") "A")).data ↔ true = true)
    ∧ (reqMarker.data <:+:
        (getEnumAsCheckbox (OmniField.mk "z" "Z" (.dt stringType) true false none)
          [] .undefined "").data ↔ true = true) :=
  ⟨(C8_required_marker_iff stringType "z" "Z" (.dt stringType) true false none
      [] .undefined "" (EnumVal.mk (.str "a") "A")).1 (by decide),
   (C8_required_marker_iff stringType "z" "Z" (.dt stringType) true false none
      [] .undefined "" (EnumVal.mk (.str "a") "A")).2.1 (by decide),
   (C8_required_marker_iff stringType "z" "Z" (.dt stringType) true false none
      [] .undefined "" (EnumVal.mk (.str "a") "A")).2.2.1 (by decide),
   (C8_required_marker_iff stringType "z" "Z" (.dt stringType) true false none
      [] .undefined "" (EnumVal.mk (.str "a") "A")).2.2.2 (by decide)⟩

/-- C9: type behaviors render from a merged options object
`Object.assign({}, this.htmlSpec, controlProps)`: the caller-supplied
value wins for every key present in both, keys only in the type defaults
keep their default, and this is exactly the merge the input behavior
renders from; with no presentation hint the enumeration behavior likewise
hands the merge of `htmlSpec` and the caller options to the select
renderer. -/
theorem C9_merged_options_caller_wins :
    (∀ (a b : Props) (k : String),
        (lookupProp a k).isSome = true → (lookupProp b k).isSome = true →
        lookupProp (objAssign a b) k = lookupProp b k)
    ∧ (∀ (a b : Props) (k : String),
        lookupProp b k = none →
        lookupProp (objAssign a b) k = lookupProp a k)
    ∧ (∀ (d : DataType) (cp : Props) (dv : JsVal) (k : String),
        (lookupProp (htmlSpecProps d) k).isSome = true →
        (lookupProp (inputControlProps cp dv) k).isSome = true →
        lookupProp (inputMergedProps d cp dv) k
          = lookupProp (inputControlProps cp dv) k)
    ∧ (∀ (d : DataType) (n l : String) (ty : FieldType) (r e : Bool)
        (cp : Props) (dv : JsVal) (p : String),
        enumGetHtml d (OmniField.mk n l ty r e none) cp dv p
          = Except.ok (getEnumAsSelect (OmniField.mk n l ty r e none)
              (objAssign (htmlSpecProps d) cp) dv p)) :=
  ⟨lookupProp_objAssign_right, lookupProp_objAssign_left,
   fun d cp dv k h1 h2 => lookupProp_objAssign_right _ _ k h1 h2,
   fun _ _ _ _ _ _ _ _ _ => rfl⟩

/-- Witness for C9: a caller prop overriding an identically-named type default. -/
theorem C9_merged_options_caller_wins_witness :
    ((lookupProp [("type", JsVal.str "text")] "type").isSome = true)
    ∧ ((lookupProp [("type", JsVal.str "number")] "type").isSome = true)
    ∧ lookupProp (objAssign [("type", JsVal.str "text")] [("type", JsVal.str "number")]) "type"
        = lookupProp [("type", JsVal.str "number")] "type"
    ∧ lookupProp (inputMergedProps stringType [("type", JsVal.str "number")] .undefined) "type"
        = lookupProp (inputControlProps [("type", JsVal.str "number")] .undefined) "type" :=
  ⟨by decide, by decide,
   C9_merged_options_caller_wins.1 [("type", JsVal.str "text")]
     [("type", JsVal.str "number")] "type" (by decide) (by decide),
   C9_merged_options_caller_wins.2.2.1 stringType [("type", JsVal.str "number")] .undefined "type"
     (by decide) (by decide)⟩

/-- C10 counterexample: the claim says the input type behavior does not
modify the `controlProps` object passed to it.  With a defined default the
source executes `controlProps.value = defaultValue`: invoked with the
empty props object and default `"x"`, the object afterwards holds a
`value` binding, so it was modified. -/
theorem C10_input_behavior_mutates_controlProps :
    (inputGetHtml stringType zipField [] (JsVal.str "x") "").2 = [("value", JsVal.str "x")]
    ∧ (inputGetHtml stringType zipField [] (JsVal.str "x") "").2 ≠ ([] : Props) := by
  refine ⟨rfl, ?_⟩
  intro h
  have h2 : ([("value", JsVal.str "x")] : Props) = [] := h
  exact List.noConfusion h2

/-- C10 as amended: rendering is otherwise free of observable effects —
the schema, field and type definitions and the default data are only
read — but the input type behavior does mutate the caller-supplied
`controlProps` object: it is returned unchanged exactly when the default
value is undefined, and otherwise gains (or overwrites) precisely the
`value` binding, every other key reading unchanged.  (In the plugin's own
field-render path the field behavior passes a fresh empty object, so the
mutation does not escape a render pass.) -/
theorem C10_input_behavior_mutation_characterised :
    ∀ (d : DataType) (f : OmniField) (cp : Props) (dv : JsVal) (p : String),
      ((inputGetHtml d f cp JsVal.undefined p).2 = cp)
      ∧ (dv ≠ JsVal.undefined →
          (inputGetHtml d f cp dv p).2 = objSet cp "value" dv
          ∧ lookupProp ((inputGetHtml d f cp dv p).2) "value" = some dv
          ∧ (∀ k : String, k ≠ "value" →
              lookupProp ((inputGetHtml d f cp dv p).2) k = lookupProp cp k)) := by
  intro d f cp dv p
  constructor
  · rfl
  · intro hdv
    have h2 : (inputGetHtml d f cp dv p).2 = objSet cp "value" dv := by
      cases dv with
      | undefined => exact absurd rfl hdv
      | null => rfl
      | str s => rfl
      | num n => rfl
      | bool b => rfl
      | obj o => rfl
    refine ⟨h2, ?_, ?_⟩
    · rw [h2, lookupProp_objSet]
      simp
    · intro k hk
      rw [h2, lookupProp_objSet]
      exact if_neg (fun hh => hk hh.symm)

/-- Witness for C10 as amended: a defined default writes the value key and preserves others. -/
theorem C10_input_behavior_mutation_characterised_witness :
    (inputGetHtml stringType zipField [("class", JsVal.str "c")] (JsVal.str "x") "").2
        = objSet [("class", JsVal.str "c")] "value" (JsVal.str "x")
    ∧ lookupProp ((inputGetHtml stringType zipField [("class", JsVal.str "c")]
        (JsVal.str "x") "").2) "value" = some (JsVal.str "x")
    ∧ lookupProp ((inputGetHtml stringType zipField [("class", JsVal.str "c")]
        (JsVal.str "x") "").2) "class" = lookupProp [("class", JsVal.str "c")] "class" := by
  have h := (C10_input_behavior_mutation_characterised stringType zipField
    [("class", JsVal.str "c")] (JsVal.str "x") "").2 (by simp)
  exact ⟨h.1, h.2.1, h.2.2 "class" (by decide)⟩

end OmniHtml5
